import Mathlib

/-!
Verification of the pm25_service repository (file index, grid normalizer,
ensemble aggregation, country-mask aggregation, threshold/shock computation).

Modelling conventions used throughout this development:
* Python strings are modelled as `List Char` (`Str`); Python `str.split` is
  `splitOnChar`.
* IEEE floats are modelled as exact rationals; a float `NaN` (missing value)
  is modelled by `Option ℚ` with `none` standing for NaN (`Cellv`).
* A Python function that can raise is modelled with `Except ε` whose error
  constructors name the raise sites.
* `numpy` reductions with NaN-skipping semantics (`nansum`, `nanmean`,
  `nanquantile`) are modelled on lists of `Cellv` by first restricting to the
  finite (`some`) entries.
-/

namespace PM25

/-- Python strings, modelled as lists of characters. -/
abbrev Str := List Char

/-- Cell value of a gridded float field: `none` models IEEE NaN / missing. -/
abbrev Cellv := Option ℚ

/-- Python `s.split(sep)` for a one-character separator: always returns a
non-empty list of separator-free pieces; `"".split(sep) == [""]`. -/
def splitOnChar (sep : Char) : Str → List Str
  | [] => [[]]
  | c :: cs =>
    match splitOnChar sep cs with
    | [] => [[]]
    | h :: t => if c = sep then [] :: h :: t else (c :: h) :: t

/-- Python `xs[-1]` on a non-empty list of strings (last element). -/
def lastStr : List Str → Str
  | [] => []
  | [p] => p
  | _ :: p :: ps => lastStr (p :: ps)

theorem splitOnChar_ne_nil (sep : Char) (s : Str) : splitOnChar sep s ≠ [] := by
  cases s with
  | nil => simp [splitOnChar]
  | cons c cs =>
    simp only [splitOnChar]
    cases h : splitOnChar sep cs with
    | nil => simp
    | cons a t =>
      by_cases hc : c = sep <;> simp [hc]

/-- Every piece produced by `splitOnChar` is free of the separator. -/
theorem splitOnChar_not_mem (sep : Char) (s : Str) :
    ∀ p ∈ splitOnChar sep s, sep ∉ p := by
  induction s with
  | nil =>
    intro p hp
    simp [splitOnChar] at hp
    simp [hp]
  | cons c cs ih =>
    intro p hp
    simp only [splitOnChar] at hp
    cases h : splitOnChar sep cs with
    | nil => exact absurd h (splitOnChar_ne_nil sep cs)
    | cons a t =>
      rw [h] at hp
      have hmem_a : a ∈ splitOnChar sep cs := by
        rw [h]; exact List.mem_cons_self a t
      by_cases hc : c = sep
      · simp only [if_pos hc, List.mem_cons] at hp
        rcases hp with hp | hp | hp
        · simp [hp]
        · exact fun hx => ih a hmem_a (hp ▸ hx)
        · exact fun hx => ih p (by rw [h]; exact List.mem_cons_of_mem a hp) hx
      · simp only [if_neg hc, List.mem_cons] at hp
        rcases hp with hp | hp
        · subst hp
          intro hmem
          rcases List.mem_cons.mp hmem with h1 | h1
          · exact hc h1.symm
          · exact ih a hmem_a h1
        · exact fun hx => ih p (by rw [h]; exact List.mem_cons_of_mem a hp) hx

/-- If `splitOnChar` returns a single piece, that piece is the whole input. -/
theorem splitOnChar_singleton {sep : Char} {s p : Str}
    (h : splitOnChar sep s = [p]) : p = s := by
  induction s generalizing p with
  | nil =>
    simp [splitOnChar] at h
    simp [h]
  | cons c cs ih =>
    simp only [splitOnChar] at h
    cases hs : splitOnChar sep cs with
    | nil => exact absurd hs (splitOnChar_ne_nil sep cs)
    | cons a t =>
      rw [hs] at h
      have h' : (if c = sep then [] :: a :: t else (c :: a) :: t) = [p] := h
      by_cases hc : c = sep
      · simp [if_pos hc] at h'
      · rw [if_neg hc] at h'
        obtain ⟨h1, h2⟩ := List.cons.inj h'
        have ha : a = cs := ih (by rw [hs, h2])
        rw [← h1, ha]

/-- The last piece of `splitOnChar` is a suffix of the input string. -/
theorem splitOnChar_last_suffix (sep : Char) (s : Str) :
    lastStr (splitOnChar sep s) <:+ s := by
  induction s with
  | nil => simp [splitOnChar, lastStr]
  | cons c cs ih =>
    simp only [splitOnChar]
    cases hs : splitOnChar sep cs with
    | nil => exact absurd hs (splitOnChar_ne_nil sep cs)
    | cons a t =>
      rw [hs] at ih
      show lastStr (if c = sep then [] :: a :: t else (c :: a) :: t) <:+ c :: cs
      by_cases hc : c = sep
      · rw [if_pos hc]
        show lastStr ([] :: a :: t) <:+ c :: cs
        have : lastStr ([] :: a :: t) = lastStr (a :: t) := rfl
        rw [this]
        exact ih.trans (List.suffix_cons c cs)
      · rw [if_neg hc]
        cases t with
        | nil =>
          show lastStr [c :: a] <:+ c :: cs
          have ha : a = cs := splitOnChar_singleton hs
          simp [lastStr, ha]
        | cons b t' =>
          show lastStr ((c :: a) :: b :: t') <:+ c :: cs
          have h1 : lastStr ((c :: a) :: b :: t') = lastStr (b :: t') := rfl
          have h2 : lastStr (a :: b :: t') = lastStr (b :: t') := rfl
          rw [h1, ← h2]
          exact ih.trans (List.suffix_cons c cs)

/-! ### Catalog / indexer (`service/indexer.py`) -/

/-- A parsed file record, the group dictionary of `_KEY_RE` in
`service/indexer.py` plus the raw storage key
(`var_freq_model_scenario_run_grid_YYYYMM-YYYYMM.nc`). -/
structure FileRecord where
  var : Str
  freq : Str
  model : Str
  scenario : Str
  run : Str
  grid : Str
  start : Str
  stop : Str
  key : Str
deriving Repr, DecidableEq

/-- The `(?P<start>\d{6})-(?P<end>\d{6})\.nc` tail of `_KEY_RE`: sixteen
characters `DDDDDD-DDDDDD.nc`. -/
def timePartOk (t : Str) : Bool :=
  t.length = 16 && (t.take 6).all Char.isDigit && t.getD 6 ' ' = '-'
    && ((t.drop 7).take 6).all Char.isDigit && t.drop 13 = ['.', 'n', 'c']

/-- `indexer.py _parse_key`: match the basename (`key.split("/")[-1]`) against
`_KEY_RE`.  Because each of the first six capture groups is `[^_]+` and the
separators are underscores, a match is exactly: the basename splits on `_`
into seven pieces, the first six non-empty, the seventh of the form
`\d{6}-\d{6}\.nc`.  `start`/`end` are the two six-digit groups. -/
def parseKey (key : Str) : Option FileRecord :=
  let name := lastStr (splitOnChar '/' key)
  let parts := splitOnChar '_' name
  if parts.length = 7 ∧ (parts.take 6).all (fun p => !p.isEmpty) ∧
      timePartOk (parts.getD 6 []) then
    let t := parts.getD 6 []
    some ⟨parts.getD 0 [], parts.getD 1 [], parts.getD 2 [], parts.getD 3 [],
          parts.getD 4 [], parts.getD 5 [], t.take 6, (t.drop 7).take 6, key⟩
  else
    none

/-- Python `k.endswith(".nc")`. -/
def endsWithNc (k : Str) : Bool := (['.', 'n', 'c'] : Str).isSuffixOf k

/-- The persisted manifest `{"files": items, "count": len(items)}` written by
`index_pm25_data`. -/
structure IndexManifest where
  files : List FileRecord
  count : Nat
deriving Repr, DecidableEq

/-- `indexer.py index_pm25_data`: scan the storage listing, keep only `.nc`
keys whose basename parses, and persist the list plus its count. -/
def indexPm25Data (listing : List Str) : IndexManifest :=
  let items := listing.filterMap (fun k => if endsWithNc k then parseKey k else none)
  ⟨items, items.length⟩

/-- One reindex request: the manifest file is rewritten from scratch (the
previous manifest, if any, is replaced wholesale — `index_pm25_data` never
reads it). -/
def reindexState (_prev : Option IndexManifest) (listing : List Str) : IndexManifest :=
  indexPm25Data listing

/-! ### Year-coverage selection (`threshold_map.py _covers_year`,
`shock.py _covers_year_range`) -/

/-- Value of a decimal digit character (used by Python `int(...)` on an
all-digit string). -/
def digitVal (c : Char) : Nat := c.toNat - 48

/-- Decimal value of an all-digit string. -/
def digitsToNat (s : Str) : Nat := s.foldl (fun a c => 10 * a + digitVal c) 0

/-- Python `int(s)` on a candidate digit string: `none` models the
`ValueError` raised when `s` is empty or contains a non-digit. -/
def strToNat? (s : Str) : Option Nat :=
  if s ≠ [] ∧ s.all Char.isDigit then some (digitsToNat s) else none

/-- Year encoded in the first four characters of a `YYYYMM` field. -/
def startYear (r : FileRecord) : Nat := digitsToNat (r.start.take 4)

/-- Year encoded in the first four characters of the end `YYYYMM` field. -/
def endYear (r : FileRecord) : Nat := digitsToNat (r.stop.take 4)

/-- `threshold_map.py _covers_year` (same code in `validate.py`): `False`
when either bound is not six characters long, otherwise
`int(start[:4]) <= year <= int(end[:4])`; `none` models the uncaught
`ValueError` of `int(...)` on a non-digit bound. -/
def coversYear (start stop : Str) (year : Int) : Option Bool :=
  if start.length ≠ 6 ∨ stop.length ≠ 6 then some false
  else
    match strToNat? (start.take 4), strToNat? (stop.take 4) with
    | some ys, some ye => some (decide ((ys : Int) ≤ year ∧ year ≤ (ye : Int)))
    | _, _ => none

/-- `shock.py _covers_year_range` (same shape in `window_field.py
_covers_any`): overlap test `not (ye < y0 or ys > y1)` on the four-digit
year prefixes. -/
def coversYearRange (start stop : Str) (y0 y1 : Int) : Option Bool :=
  if start.length ≠ 6 ∨ stop.length ≠ 6 then some false
  else
    match strToNat? (start.take 4), strToNat? (stop.take 4) with
    | some ys, some ye => some (!(decide ((ye : Int) < y0 ∨ (ys : Int) > y1)))
    | _, _ => none

/-! ### Shock statistic (`service/shock.py`, lines 180-185) -/

/-- The stat value selecting the difference branch in `compute_region_shock`. -/
def statDiff : String := "diff"

/-- `shock.py compute_region_shock`, final statistic: `stat == "diff"` yields
`proj - ref`; every other stat string — including the value `"delta"` that the
HTTP layer (`api/pm25.py region_shock`, pattern `^(ratio|delta)$`) validates
and forwards — falls into the `else` branch and yields `proj/ref - 1`, which
is NaN whenever `ref` is NaN (missing / non-finite) or zero. -/
def computeShockValue (stat : String) (projVal ref : Cellv) : Cellv :=
  if stat = statDiff then
    match projVal, ref with
    | some p, some r => some (p - r)
    | _, _ => none
  else
    match ref with
    | some r =>
      if r ≠ 0 then
        match projVal with
        | some p => some (p / r - 1)
        | none => none
      else none
    | none => none

/-! ### Country-mask aggregation (`service/shock.py` `_country_weighted_mean`,
`service/region_mask.py` `area_weighted_mean`).

The per-latitude weight `cos(radians(lat))` is transcendental; both
aggregators only use it through its (strictly positive) values, so the weight
function is a parameter `w : ℚ → ℚ` standing for `lambda lat: cos(deg2rad(lat))`. -/

/-- A 2-D (lat, lon) float field. -/
abbrev Field := List (List Cellv)

/-- Number of `true` entries of a boolean row. -/
def countTrue (l : List Bool) : Nat := l.countP id

/-- One row of `used = mask & isfinite(field)`. -/
def usedRow (fr : List Cellv) (mr : List Bool) : List Bool :=
  (fr.zip mr).map (fun p => p.2 && p.1.isSome)

/-- `used = mask.astype(bool) & np.isfinite(field.values)`. -/
def usedGrid (field : Field) (mask : List (List Bool)) : List (List Bool) :=
  (field.zip mask).map (fun r => usedRow r.1 r.2)

/-- `n_used = int(used.sum())`. -/
def usedCountOf (field : Field) (mask : List (List Bool)) : Nat :=
  ((usedGrid field mask).map countTrue).sum

/-- `n_mask = int(mask.values.sum())`. -/
def maskCount (mask : List (List Bool)) : Nat := (mask.map countTrue).sum

/-- `region_mask.py area_weighted_mean(field, mask)` on aligned inputs:
returns `(value, n_valid, n_mask)`; when no masked cell holds a finite value
it returns `(nan, 0, n_mask)` without raising, otherwise the cosine-latitude
weighted mean over the used cells. -/
def areaWeightedMean (w : ℚ → ℚ) (lats : List ℚ) (field : Field)
    (mask : List (List Bool)) : Cellv × Nat × Nat :=
  let nMask := maskCount mask
  let nUsed := usedCountOf field mask
  if nUsed = 0 then (none, 0, nMask)
  else
    let rows := lats.zip (field.zip mask)
    let num := (rows.map (fun r =>
      ((r.2.1.zip r.2.2).map (fun p =>
        if p.2 && p.1.isSome then p.1.getD 0 * w r.1 else 0)).sum)).sum
    let den := (rows.map (fun r =>
      ((r.2.1.zip r.2.2).map (fun p =>
        if p.2 && p.1.isSome then w r.1 else 0)).sum)).sum
    (some (num / den), nUsed, nMask)

/-- The country-mask dataset opened by `compute_region_shock`: the integer
code raster plus the `iso2_lookup` attribute (`id -> iso2`, insertion-ordered). -/
structure MaskDS where
  lats : List ℚ
  code : List (List Int)
  lookup : List (Int × Str)
deriving Repr, DecidableEq

/-- Python `str.upper()` (ASCII view). -/
def upperStr (s : Str) : Str := s.map Char.toUpper

/-- `shock.py _country_id`: invert the lookup (`{v.upper(): k ...}`, later
entries overwriting earlier ones) and fetch `alpha2.upper()`; `none` models
the raised `ValueError("Country ... not found in mask")`. -/
def countryIdOf (lookup : List (Int × Str)) (alpha2 : Str) : Option Int :=
  ((lookup.filter (fun p => decide (upperStr p.2 = upperStr alpha2))).getLast?).map Prod.fst

/-- Raise sites of `_country_id` / `_country_weighted_mean`. -/
inductive CwmErr
  | countryNotFound
  | noCellsForCountry
deriving Repr, DecidableEq

/-- `sel = (code == cid)`: the boolean raster of the country's cells. -/
def selGrid (code : List (List Int)) (cid : Int) : List (List Bool) :=
  code.map (fun row => row.map (fun c => c == cid))

/-- `np.any(sel)` as a cell count: number of raster cells carrying the code. -/
def selCount (code : List (List Int)) (cid : Int) : Nat :=
  ((selGrid code cid).map countTrue).sum

/-- `sw = np.nansum(np.where(sel, w, 0.0))`: total weight of the selected
cells (the weight raster holds no NaN). -/
def cwmWeightSum (w : ℚ → ℚ) (lats : List ℚ) (field : Field)
    (sel : List (List Bool)) : ℚ :=
  ((lats.zip (field.zip sel)).map (fun r =>
    (r.2.2.map (fun b => if b then w r.1 else 0)).sum)).sum

/-- `np.nansum(v * w)` with `v = np.where(sel, field, nan)` and
`w = np.where(sel, w2d, 0.0)`: NaN products are skipped, all others are
`value * weight` on selected cells and `0` elsewhere. -/
def cwmNanSum (w : ℚ → ℚ) (lats : List ℚ) (field : Field)
    (sel : List (List Bool)) : ℚ :=
  ((lats.zip (field.zip sel)).map (fun r =>
    ((r.2.1.zip r.2.2).map (fun p =>
      match p.1, p.2 with
      | some v, true => v * w r.1
      | _, _ => 0)).sum)).sum

/-- `shock.py _country_weighted_mean(field, mask, alpha2)` on aligned inputs:
raises when the country is not in the lookup or no raster cell carries its
code; otherwise `nansum(v*w)/nansum(w)` over the selected cells — note that
`np.nansum` of an all-NaN selection is `0.0`, so a country whose cells hold no
finite field value yields `0.0`, not NaN. -/
def countryWeightedMean (w : ℚ → ℚ) (field : Field) (mds : MaskDS)
    (alpha2 : Str) : Except CwmErr Cellv :=
  match countryIdOf mds.lookup alpha2 with
  | none => .error .countryNotFound
  | some cid =>
    let sel := selGrid mds.code cid
    if selCount mds.code cid = 0 then .error .noCellsForCountry
    else
      let sw := cwmWeightSum w mds.lats field sel
      if sw ≤ 0 then .ok none
      else .ok (some (cwmNanSum w mds.lats field sel / sw))

/-! ### Canonical target grid and mask-vs-grid validation
(`service/country_mask.py target_grid`, `service/validate.py`) -/

/-- `country_mask.py target_grid()` latitudes: `np.linspace(-89.5, 89.5, 180)`
(same array in `threshold_map.py _target_grid`). The function takes NO
parameters. -/
def targetLat : List ℚ := (List.range 180).map (fun n : ℕ => -89.5 + (n : ℚ))

/-- `country_mask.py target_grid()` longitudes: `np.linspace(0.5, 359.5, 360)`. -/
def targetLon : List ℚ := (List.range 360).map (fun n : ℕ => 0.5 + (n : ℚ))

/-- Python-level exceptions surfaced by the validation module. -/
inductive PyErr
  | typeErrorUnexpectedKwarg
deriving Repr, DecidableEq

/-- The call `target_grid(res_deg=res_deg)` made by
`validate.py check_mask_vs_target` (line 93) and
`validate.py regridded_annual2015_on_target` (line 130): since
`country_mask.target_grid` accepts no parameter, the call raises
`TypeError: target_grid() got an unexpected keyword argument 'res_deg'`. -/
def targetGridKw (_resDeg : ℚ) : Except PyErr (List ℚ × List ℚ) :=
  .error .typeErrorUnexpectedKwarg

/-- `float(np.max(np.abs(a - b)))` for same-length coordinate arrays. -/
def maxAbsDiff (a b : List ℚ) : ℚ :=
  ((a.zip b).map (fun p => |p.1 - p.2|)).foldr max 0

/-- Result dictionary of `check_mask_vs_target` (comparison fields only). -/
structure CheckGridOut where
  ok : Bool
  sameShape : Bool
  latMaxAbsDiff : Option ℚ
  lonMaxAbsDiff : Option ℚ
deriving Repr, DecidableEq

/-- `validate.py check_mask_vs_target` with the mask file present and its
coordinate arrays `mlat`/`mlon` read: the next statement is
`target_grid(res_deg=res_deg)`, which raises `TypeError` before any
comparison; the shape / max-abs-diff / tolerance logic below it (lines
94-106) is unreachable. -/
def checkMaskVsTarget (mlat mlon : List ℚ) (resDeg tol : ℚ) :
    Except PyErr CheckGridOut :=
  match targetGridKw resDeg with
  | .error e => .error e
  | .ok (tlat, tlon) =>
    let sameShape := mlat.length == tlat.length && mlon.length == tlon.length
    let latDiff := if sameShape then some (maxAbsDiff mlat tlat) else none
    let lonDiff := if sameShape then some (maxAbsDiff mlon tlon) else none
    let okLat := match latDiff with | some d => decide (d ≤ tol) | none => false
    let okLon := match lonDiff with | some d => decide (d ≤ tol) | none => false
    .ok ⟨sameShape && okLat && okLon, sameShape, latDiff, lonDiff⟩

/-! ### NaN-skipping reductions and the ensemble quantile
(`service/threshold_map.py build_threshold_map`) -/

/-- The finite (non-NaN) entries of a list of cell values. -/
def finiteVals (xs : List Cellv) : List ℚ := xs.filterMap id

/-- `np.nanmean` over a list of cell values (NaN iff no finite entry). -/
def nanmean (xs : List Cellv) : Cellv :=
  let v := finiteVals xs
  if v.isEmpty then none else some (v.sum / (v.length : ℚ))

/-- Insertion step of an ascending sort on rationals. -/
def insertSorted (x : ℚ) : List ℚ → List ℚ
  | [] => [x]
  | y :: ys => if x ≤ y then x :: y :: ys else y :: insertSorted x ys

/-- Ascending sort on rationals (the sort inside `np.quantile`). -/
def sortQ (l : List ℚ) : List ℚ := l.foldr insertSorted []

/-- `np.quantile(xs, q)` with the default linear interpolation: virtual index
`h = q * (n - 1)`, result `s[i] + (h - i) * (s[i+1] - s[i])` with `i = ⌊h⌋`
on the ascending sort `s` (the `i+1` access is clamped; it is only used when
`h` has a fractional part). -/
def npQuantileLinear (q : ℚ) (xs : List ℚ) : Option ℚ :=
  let s := sortQ xs
  if s.isEmpty then none
  else
    let h := q * ((s.length : ℚ) - 1)
    let i := (⌊h⌋).toNat
    let g := h - (i : ℚ)
    let a := s.getD i 0
    let b := s.getD (i + 1) a
    some (a + g * (b - a))

/-- The member values at one grid cell of the stacked ensemble
(`xr.concat(fields, dim="member", join="outer", fill_value=np.nan)` read at a
fixed cell `(i, j)`). -/
def stackCellVals (stack : List Field) (i j : Nat) : List Cellv :=
  stack.map (fun f => (f.getD i []).getD j none)

/-- One cell of `stack.quantile(quantile, dim="member", skipna=True)`
(threshold_map.py line 163): `np.nanquantile` = `np.quantile` over the finite
member values, NaN when every member is NaN at the cell. -/
def qmapCell (q : ℚ) (stack : List Field) (i j : Nat) : Cellv :=
  npQuantileLinear q (finiteVals (stackCellVals stack i j))

/-! ### Ensemble member loop (`build_threshold_map` lines 139-157,
`compute_region_shock` lines 139-157).

The body of the per-member `for` loop (download, normalize, all-NaN check) is
modelled by its outcome, an `Except String Field`-style value per member:
`.ok` when the member yields a usable field, `.error msg` when any step of the
body raised and the `except` clause recorded `msg` in the error list. -/

/-- The loop: successful members are appended to `fields`, failures to
`errors`, in order; no failure aborts the loop. -/
def processMembers {F : Type} (rs : List (Except String F)) :
    List F × List String :=
  rs.foldl (fun acc r =>
    match r with
    | .ok f => (acc.1 ++ [f], acc.2)
    | .error e => (acc.1, acc.2 ++ [e])) ([], [])

/-- After the loop: `if not fields: raise ValueError(f"... first_errors=
{errors[:3]}")`; otherwise aggregation proceeds with the collected fields and
the recorded error list (surfaced truncated in the response). -/
def buildMemberStack {F : Type} (rs : List (Except String F)) :
    Except (List String) (List F × List String) :=
  let p := processMembers rs
  if p.1.isEmpty then .error (p.2.take 3) else .ok p

/-! ### Grid normalizer (`service/threshold_map.py
_annual_mean_2015_on_target`; the same steps appear in
`shock.py _window_mean_on_target_from_paths` and
`window_field.py _annual_mean_window_on_target`) -/

/-- `(lon + 360) % 360` on floats: the representative of `lon` in `[0, 360)`. -/
def wrap360 (x : ℚ) : ℚ := x + 360 - 360 * ⌊(x + 360) / 360⌋

/-- Insertion step of the ascending sort of (longitude, column) pairs. -/
def insertByFst (x : ℚ × Nat) : List (ℚ × Nat) → List (ℚ × Nat)
  | [] => [x]
  | y :: ys => if x.1 < y.1 then x :: y :: ys else y :: insertByFst x ys

/-- Ascending sort of (longitude, column) pairs by longitude (`sortby`). -/
def sortPairsByFst (l : List (ℚ × Nat)) : List (ℚ × Nat) := l.foldr insertByFst []

/-- Nearest-neighbour 1-D interpolation index, as performed by
`da.interp(..., method="nearest")` (scipy `interp1d(kind="nearest",
bounds_error=False, fill_value=nan)`): `none` (NaN fill) outside the source
coordinate range, otherwise the index of the closest source coordinate, ties
resolved toward the smaller coordinate. -/
def interpNearest1D (coords : List ℚ) (t : ℚ) : Option Nat :=
  match coords with
  | [] => none
  | c :: cs =>
    if t < cs.foldl min c ∨ cs.foldl max c < t then none
    else some ((List.range (c :: cs).length).foldl (fun best j =>
      let cb := (c :: cs).getD best 0
      let cj := (c :: cs).getD j 0
      if |cj - t| < |cb - t| ∨ (|cj - t| = |cb - t| ∧ cj < cb) then j else best) 0)

/-- Longitude handling (lines 87-91): when any source longitude is negative,
map all longitudes into `[0, 360)` and re-sort the columns ascending
(`assign_coords` + `sortby`); otherwise leave them untouched. Returns the
effective longitudes paired with their original column index. -/
def lonOrder (lons : List ℚ) : List (ℚ × Nat) :=
  let anyNeg := lons.any (fun x => decide (x < 0))
  let pairs := (lons.map (fun x => if anyNeg then wrap360 x else x)).zip
    (List.range lons.length)
  if anyNeg then sortPairsByFst pairs else pairs

/-- Longitude normalization followed by nearest-neighbour interpolation onto
the canonical 180×360 grid and renaming of the coordinates to `lat`/`lon`
(lines 86-98): the output coordinates are exactly the target arrays,
independent of the source grid. -/
def regridToTarget (srcLats srcLons : List ℚ) (field : Field) : Field :=
  let pairs := lonOrder srcLons
  let lons2 := pairs.map Prod.fst
  let field2 := field.map (fun row => pairs.map (fun p => row.getD p.2 none))
  targetLat.map (fun tl =>
    targetLon.map (fun tn =>
      match interpNearest1D srcLats tl, interpNearest1D lons2 tn with
      | some i, some j => (field2.getD i []).getD j none
      | _, _ => none))

/-- A raw source dataset as consumed by `_annual_mean_2015_on_target` once
the variable and coordinate names are resolved: the variable has dims
(time, lat, lon); `timeYears` is `da["time"].dt.year` per sample. -/
structure SrcDataset where
  lats : List ℚ
  lons : List ℚ
  timeYears : List Int
  vals : List Field
deriving Repr, DecidableEq

/-- Raise site of the time-window selection. -/
inductive NormErr
  | emptyWindow
deriving Repr, DecidableEq

/-- Cell `(i, j)` of `mean(dim="time", skipna=True)` over 2-D time layers. -/
def timeMeanCell (layers : List Field) (i j : Nat) : Cellv :=
  nanmean (layers.map (fun L => (L.getD i []).getD j none))

/-- A canonical-grid field together with its `lat`/`lon` coordinate arrays. -/
structure Grid2 where
  lats : List ℚ
  lons : List ℚ
  vals : Field
deriving Repr, DecidableEq

/-- `threshold_map.py _annual_mean_2015_on_target`: keep the time samples
with calendar year 2015 (raising `ValueError("no samples with year==2015")`
when none match), average them skipping NaN, then regrid onto the canonical
grid. (For a plain (time, lat, lon) variable the `for dim not in {lat, lon}`
loop has nothing left to reduce.) -/
def annualMean2015OnTarget (ds : SrcDataset) : Except NormErr Grid2 :=
  let layers := (ds.timeYears.zip ds.vals).filterMap
    (fun p => if p.1 = 2015 then some p.2 else none)
  if layers.isEmpty then .error .emptyWindow
  else
    let meanF : Field := (List.range ds.lats.length).map (fun i =>
      (List.range ds.lons.length).map (fun j => timeMeanCell layers i j))
    .ok ⟨targetLat, targetLon, regridToTarget ds.lats ds.lons meanF⟩

/-- A raw source dataset whose variable carries a vertical dimension:
dims (time, lev, lat, lon), with the `lev` coordinate values in `levs`. -/
structure SrcDatasetLev where
  lats : List ℚ
  lons : List ℚ
  levs : List ℚ
  timeYears : List Int
  vals : List (List Field)
deriving Repr, DecidableEq

/-- The reduction part of `_annual_mean_2015_on_target` for a variable with a
vertical dimension: the 2015 time mean comes FIRST, then the loop
`for dim in list(da_y.dims): if dim not in {latn, lonn}: da_y = da_y.mean(dim,
skipna=True)` averages the vertical dimension away — it does not select a
level. -/
def annualMeanLevReduce (ds : SrcDatasetLev) : Except NormErr Field :=
  let layers := (ds.timeYears.zip ds.vals).filterMap
    (fun p => if p.1 = 2015 then some p.2 else none)
  if layers.isEmpty then .error .emptyWindow
  else
    .ok ((List.range ds.lats.length).map (fun i =>
      (List.range ds.lons.length).map (fun j =>
        nanmean ((List.range ds.levs.length).map (fun l =>
          timeMeanCell (layers.map (fun L => L.getD l [])) i j)))))

/-- Full `_annual_mean_2015_on_target` on a variable with a vertical
dimension: time mean, vertical mean, then regridding onto the canonical grid. -/
def annualMean2015OnTargetLev (ds : SrcDatasetLev) : Except NormErr Grid2 :=
  (annualMeanLevReduce ds).map
    (fun f => ⟨targetLat, targetLon, regridToTarget ds.lats ds.lons f⟩)

/-- `np.argmax` / `xr.DataArray.argmax` on a 1-D numeric coordinate: index of
the first maximal value. -/
def argmaxIdx (coords : List ℚ) : Nat :=
  (List.range coords.length).foldl (fun best j =>
    if coords.getD best 0 < coords.getD j 0 then j else best) 0

/-- `normalize.py normalize_da`, vertical reduction (lines 22-28): when the
array carries a vertical dimension with a numeric coordinate, `isel` the
single level whose coordinate value is numerically largest (first occurrence);
with no numeric coordinate Python falls back to index `-1`, the last level.
This happens before the dummy-time insertion, hence before any time
reduction. (`normalize_da` belongs to the `pm25_calc` pipeline, which no live
endpoint imports.) -/
def normalizeDaVertical {α : Type} (coords : Option (List ℚ)) (slices : List α) :
    Option α :=
  match coords with
  | some cs => slices.get? (argmaxIdx cs)
  | none => slices.get? (slices.length - 1)

/-! ### Auxiliary definitions for statements and concrete instances -/

/-- The fields collected by the member loop (in loop order). -/
def okVals {F : Type} (rs : List (Except String F)) : List F :=
  rs.filterMap Except.toOption

/-- The error messages recorded by the member loop (in loop order). -/
def errVals {F : Type} (rs : List (Except String F)) : List String :=
  rs.filterMap (fun r => match r with | .error e => some e | .ok _ => none)

/-- A well-formed storage key:
`mmrpm2p5_AERmon_TACC_ssp245_r1i1p1f1_gn_201501-210012.nc`. -/
def key0 : Str :=
  ['m','m','r','p','m','2','p','5','_','A','E','R','m','o','n','_','T','A','C','C','_',
   's','s','p','2','4','5','_','r','1','i','1','p','1','f','1','_','g','n','_',
   '2','0','1','5','0','1','-','2','1','0','0','1','2','.','n','c']

/-- The record parsed from `key0`. -/
def rec0 : FileRecord :=
  ⟨['m','m','r','p','m','2','p','5'], ['A','E','R','m','o','n'], ['T','A','C','C'],
   ['s','s','p','2','4','5'], ['r','1','i','1','p','1','f','1'], ['g','n'],
   ['2','0','1','5','0','1'], ['2','1','0','0','1','2'], key0⟩

/-- A one-point source dataset with a single 2015 sample (its only grid point
lies off every canonical cell centre). -/
def wds : SrcDataset := ⟨[0], [0], [2015], [[[some 1]]]⟩

/-- The canonical-grid field produced from `wds`. -/
def wg : Grid2 :=
  ⟨targetLat, targetLon, regridToTarget [0] [0] [[timeMeanCell [[[some 1]]] 0 0]]⟩

/-- A one-point, two-level source dataset: level coordinates `0 < 1`, values
`10` at level `0` and `20` at the (topmost-coordinate) level `1`, one 2015
sample. -/
def dsLev9 : SrcDatasetLev :=
  ⟨[1/2], [1/2], [0, 1], [2015], [[[[some 10]], [[some 20]]]]⟩

/-- A 1×1 mask dataset whose lookup knows country `DE` (id 1) but whose only
raster cell carries code `0` (no cell for `DE`). -/
def mdsNoCell : MaskDS := ⟨[0], [[0]], [(1, ['D', 'E'])]⟩

/-- A 1×1 mask dataset whose only raster cell carries `DE`'s code. -/
def mdsOneCell : MaskDS := ⟨[0], [[1]], [(1, ['D', 'E'])]⟩

/-- A placeholder member-error message. -/
def msgA : String := "download failed"

/-! ## Supporting lemmas about the canonical target grid -/

theorem targetLat_length : targetLat.length = 180 := by
  simp [targetLat]

theorem targetLon_length : targetLon.length = 360 := by
  simp [targetLon]

theorem targetLat_sorted : List.Pairwise (· < ·) targetLat := by
  rw [targetLat, List.pairwise_map]
  refine (List.pairwise_lt_range 180).imp ?_
  intro a b hab
  have h1 : (a : ℚ) < (b : ℚ) := by exact_mod_cast hab
  linarith

theorem targetLon_sorted : List.Pairwise (· < ·) targetLon := by
  rw [targetLon, List.pairwise_map]
  refine (List.pairwise_lt_range 360).imp ?_
  intro a b hab
  have h1 : (a : ℚ) < (b : ℚ) := by exact_mod_cast hab
  linarith

theorem targetLat_bounds : ∀ x ∈ targetLat, -89.5 ≤ x ∧ x ≤ 89.5 := by
  intro x hx
  rw [targetLat] at hx
  obtain ⟨i, hi, hx'⟩ := List.mem_map.mp hx
  subst hx'
  rw [List.mem_range] at hi
  have h1 : (0 : ℚ) ≤ (i : ℚ) := by positivity
  have h2 : (i : ℚ) ≤ 179 := by exact_mod_cast Nat.lt_succ_iff.mp hi
  exact ⟨by linarith, by linarith⟩

theorem targetLon_bounds : ∀ x ∈ targetLon, 0 ≤ x ∧ x < 360 := by
  intro x hx
  rw [targetLon] at hx
  obtain ⟨i, hi, hx'⟩ := List.mem_map.mp hx
  subst hx'
  rw [List.mem_range] at hi
  have h1 : (0 : ℚ) ≤ (i : ℚ) := by positivity
  have h2 : (i : ℚ) ≤ 359 := by exact_mod_cast Nat.lt_succ_iff.mp hi
  exact ⟨by linarith, by linarith⟩

/-! ## Claim C8 -/

/-- C8: `reindex` is a deterministic function of the storage listing and
replaces any previous manifest wholesale, so running it twice over an
unchanged listing persists an identical file-record list and count, whose
count always equals the length of the record list. -/
theorem c8_theorem :
    ∀ (prev : Option IndexManifest) (listing : List Str),
      reindexState (some (reindexState prev listing)) listing
        = reindexState prev listing ∧
      (reindexState prev listing).count
        = (reindexState prev listing).files.length :=
  fun _ _ => ⟨rfl, rfl⟩

/-! ## Claim C3 -/

/-- C3 (code_bug evidence): `check_mask_vs_target` raises `TypeError` on
EVERY input — in particular on a mask whose coordinate arrays exactly equal
the canonical grid with the default `res_deg=1.0`, `tol=1e-6` — because it
calls `target_grid(res_deg=res_deg)` although `country_mask.target_grid`
accepts no parameter; the shape/tolerance comparison is unreachable, so no
mask is ever accepted or rejected on coordinates. -/
theorem c3_theorem :
    checkMaskVsTarget targetLat targetLon 1 (1/1000000)
      = .error .typeErrorUnexpectedKwarg ∧
    ∀ (mlat mlon : List ℚ) (resDeg tol : ℚ),
      checkMaskVsTarget mlat mlon resDeg tol = .error .typeErrorUnexpectedKwarg :=
  ⟨rfl, fun _ _ _ _ => rfl⟩

/-! ## Claim C2 -/

/-- C2 (code_bug evidence): in `compute_region_shock` only the stat string
`"diff"` selects the difference branch; the value `"delta"`, which the HTTP
layer validates (`^(ratio|delta)$`) and forwards, falls into the else branch
and computes the ratio — with projected 120 and reference 100 it yields 1/5
(0.2) and not the specified 20, which only `"diff"` produces. The ratio
statistic itself behaves as specified: `p/r - 1`, NaN when the reference is
zero or NaN/missing. -/
theorem c2_theorem :
    computeShockValue ("delta") (some 120) (some 100) = some (1/5) ∧
    computeShockValue ("delta") (some 120) (some 100) ≠ some 20 ∧
    computeShockValue statDiff (some 120) (some 100) = some 20 ∧
    computeShockValue ("ratio") (some 120) (some 100) = some (1/5) ∧
    computeShockValue ("ratio") (some 120) (some 0) = none ∧
    computeShockValue ("ratio") (some 120) none = none := by
  refine ⟨?_, ?_, ?_, ?_, ?_, ?_⟩
  · rw [computeShockValue, if_neg (by decide)]
    norm_num
  · rw [computeShockValue, if_neg (by decide)]
    simp only [ne_eq, Option.some.injEq]
    norm_num
  · rw [computeShockValue, if_pos rfl]
    norm_num
  · rw [computeShockValue, if_neg (by decide)]
    norm_num
  · rw [computeShockValue, if_neg (by decide)]
    norm_num
  · exact rfl

/-! ## Claim C4 -/

/-- C4 (counterexample): two members with cell values 0 and 1, quantile 0.95:
the built quantile map holds 0.95 at that cell — the linear-interpolation
95th percentile — and not the larger member value 1. -/
theorem c4_counterexample :
    qmapCell (19/20) [[[some 0]], [[some 1]]] 0 0 = some (19/20) ∧
    (19/20 : ℚ) ≠ max 0 1 := by
  constructor
  · rw [qmapCell]
    have h1 : stackCellVals [[[some 0]], [[some 1]]] 0 0 = [some 0, some 1] := rfl
    rw [h1]
    have h2 : finiteVals [some 0, some 1] = [0, 1] := rfl
    rw [h2, npQuantileLinear]
    have h3 : sortQ [0, 1] = [0, 1] := by
      simp [sortQ, insertSorted]
    rw [h3]
    norm_num
  · norm_num

/-- `np.quantile` on a sorted pair under linear interpolation, for a quantile
below 1: `x + q*(y - x)`. -/
theorem npQuantileLinear_pair {xs : List ℚ} (q x y : ℚ) (hq0 : 0 ≤ q)
    (hq1 : q < 1) (hs : sortQ xs = [x, y]) :
    npQuantileLinear q xs = some (x + q * (y - x)) := by
  rw [npQuantileLinear, hs]
  have hfq : ⌊q⌋ = 0 := Int.floor_eq_zero_iff.mpr (Set.mem_Ico.mpr ⟨hq0, hq1⟩)
  simp only [List.isEmpty_cons, Bool.false_eq_true, if_false]
  norm_num [hfq, List.getD_cons_zero, List.getD_cons_succ]

/-- C4 (amended): at every cell where the two members are both finite, the
quantile map built with q = 0.95 from exactly two member fields holds
`min + 0.95*(max - min)` (the linearly interpolated 95th percentile), which
equals the larger member value only when both values coincide. -/
theorem c4_theorem (stack : List Field) (i j : Nat) (a b : ℚ)
    (h : stackCellVals stack i j = [some a, some b]) :
    qmapCell (19/20) stack i j
      = some (min a b + (19/20) * (max a b - min a b)) := by
  rw [qmapCell, h]
  have hf : finiteVals [some a, some b] = [a, b] := rfl
  rw [hf]
  by_cases hab : a ≤ b
  · have hs : sortQ [a, b] = [a, b] := by
      simp [sortQ, insertSorted, hab]
    rw [npQuantileLinear_pair (19/20) a b (by norm_num) (by norm_num) hs,
      min_eq_left hab, max_eq_right hab]
  · have hb : b ≤ a := le_of_not_le hab
    have hs : sortQ [a, b] = [b, a] := by
      simp [sortQ, insertSorted, hab]
    rw [npQuantileLinear_pair (19/20) b a (by norm_num) (by norm_num) hs,
      min_eq_right hb, max_eq_left hb]

/-- Witness for C4 at member values 2 and 7. -/
theorem c4_witness :
    qmapCell (19/20) [[[some 2]], [[some 7]]] 0 0
      = some (min 2 7 + (19/20) * (max 2 7 - min 2 7)) :=
  c4_theorem [[[some 2]], [[some 7]]] 0 0 2 7 rfl

/-! ## Claim C5 -/

/-- C5: whenever `_annual_mean_2015_on_target` accepts a source dataset, the
produced field lies on the canonical grid: shape exactly (180, 360),
latitudes strictly increasing within [-89.5, 89.5] and longitudes strictly
increasing within [0, 360). -/
theorem c5_theorem (ds : SrcDataset) (g : Grid2)
    (h : annualMean2015OnTarget ds = .ok g) :
    g.lats = targetLat ∧ g.lons = targetLon ∧
    g.lats.length = 180 ∧ g.lons.length = 360 ∧
    g.vals.length = 180 ∧ (∀ row ∈ g.vals, row.length = 360) ∧
    List.Pairwise (· < ·) g.lats ∧ (∀ x ∈ g.lats, -89.5 ≤ x ∧ x ≤ 89.5) ∧
    List.Pairwise (· < ·) g.lons ∧ (∀ x ∈ g.lons, 0 ≤ x ∧ x < 360) := by
  simp only [annualMean2015OnTarget] at h
  split at h
  · exact absurd h (by simp)
  · have hg := Except.ok.inj h
    subst hg
    refine ⟨rfl, rfl, targetLat_length, targetLon_length, ?_, ?_,
      targetLat_sorted, targetLat_bounds, targetLon_sorted, targetLon_bounds⟩
    · show (regridToTarget _ _ _).length = 180
      rw [regridToTarget]
      simp [targetLat_length]
    · intro row hrow
      simp only [regridToTarget, List.mem_map] at hrow
      obtain ⟨tl, _, hrow'⟩ := hrow
      rw [← hrow']
      simp [targetLon_length]

/-- Witness for C5: the normalizer accepts `wds` and produces `wg`. -/
theorem c5_witness :
    wg.lats = targetLat ∧ wg.lons = targetLon ∧
    wg.lats.length = 180 ∧ wg.lons.length = 360 ∧
    wg.vals.length = 180 ∧ (∀ row ∈ wg.vals, row.length = 360) ∧
    List.Pairwise (· < ·) wg.lats ∧ (∀ x ∈ wg.lats, -89.5 ≤ x ∧ x ≤ 89.5) ∧
    List.Pairwise (· < ·) wg.lons ∧ (∀ x ∈ wg.lons, 0 ≤ x ∧ x < 360) :=
  c5_theorem wds wg rfl

/-! ## Claim C7 -/

/-- The member loop accumulates exactly the successful fields and the
recorded error messages, in loop order. -/
theorem processMembers_eq {F : Type} (rs : List (Except String F)) :
    processMembers rs = (okVals rs, errVals rs) := by
  have key : ∀ (l : List (Except String F)) (acc : List F × List String),
      l.foldl (fun acc r =>
        match r with
        | .ok f => (acc.1 ++ [f], acc.2)
        | .error e => (acc.1, acc.2 ++ [e])) acc
        = (acc.1 ++ okVals l, acc.2 ++ errVals l) := by
    intro l
    induction l with
    | nil =>
      intro acc
      simp [okVals, errVals]
    | cons r rest ih =>
      intro acc
      cases r with
      | ok f =>
        simp only [List.foldl_cons]
        rw [ih]
        simp [okVals, errVals, Except.toOption, List.filterMap_cons]
      | error e =>
        simp only [List.foldl_cons]
        rw [ih]
        simp [okVals, errVals, Except.toOption, List.filterMap_cons]
  have h0 := key rs ([], [])
  simpa [processMembers] using h0

/-- C7: a failure while processing one member is recorded in the error list
without aborting the aggregation as long as ANY member succeeds; when zero
members succeed, the operation fails with an error carrying the first three
recorded member errors. -/
theorem c7_theorem {F : Type} (rs : List (Except String F)) :
    ((∃ f : F, Except.ok f ∈ rs) →
      buildMemberStack rs = .ok (okVals rs, errVals rs)) ∧
    ((∀ r ∈ rs, ∃ e, r = Except.error e) →
      buildMemberStack rs = .error ((errVals rs).take 3)) := by
  constructor
  · rintro ⟨f, hf⟩
    have hmem : f ∈ okVals rs :=
      List.mem_filterMap.mpr ⟨Except.ok f, hf, rfl⟩
    have hne : (okVals rs).isEmpty = false := by
      cases hv : okVals rs with
      | nil => rw [hv] at hmem; exact absurd hmem (List.not_mem_nil f)
      | cons a l => simp
    simp only [buildMemberStack, processMembers_eq, hne, Bool.false_eq_true,
      if_false]
  · intro hall
    have hnil : okVals rs = [] := by
      rw [okVals, List.filterMap_eq_nil_iff]
      intro r hr
      obtain ⟨e, rfl⟩ := hall r hr
      rfl
    simp only [buildMemberStack, processMembers_eq, hnil, List.isEmpty_nil,
      if_true]

/-- Witness for C7: one loop with a surviving member and one with none. -/
theorem c7_witness :
    buildMemberStack [Except.ok (1 : ℚ), Except.error msgA]
      = .ok (okVals [Except.ok (1 : ℚ), Except.error msgA],
             errVals [Except.ok (1 : ℚ), Except.error msgA]) ∧
    buildMemberStack [(Except.error msgA : Except String ℚ)]
      = .error ((errVals [(Except.error msgA : Except String ℚ)]).take 3) :=
  ⟨(c7_theorem _).1 ⟨1, by simp⟩,
   (c7_theorem _).2 (by
    intro r hr
    rw [List.mem_singleton] at hr
    exact ⟨msgA, hr⟩)⟩

/-! ## Claim C1 -/

/-- C1 (counterexample): `_country_weighted_mean` RAISES — it does not return
NaN with `n_cells_used = 0` — when no raster cell carries the country's code,
and likewise raises for a country absent from the lookup. -/
theorem c1_counterexample :
    countryWeightedMean (fun _ => 1) [[some 5]] mdsNoCell ['D', 'E']
      = .error .noCellsForCountry ∧
    countryWeightedMean (fun _ => 1) [[some 5]] mdsNoCell ['F', 'R']
      = .error .countryNotFound :=
  ⟨rfl, rfl⟩

/-- C1 (amended): the dead-code `region_mask.area_weighted_mean` does satisfy
the claim — it never raises and returns `(NaN, 0, n_mask)` whenever no masked
cell holds a finite value — while the live `shock._country_weighted_mean`
raises `ValueError` when the country's code appears in no cell, and returns
`0.0` (not NaN, via `np.nansum` of an all-NaN selection) when the country's
cells exist but hold no finite value. -/
theorem c1_theorem :
    (∀ (w : ℚ → ℚ) (lats : List ℚ) (field : Field) (mask : List (List Bool)),
      usedCountOf field mask = 0 →
      areaWeightedMean w lats field mask = (none, 0, maskCount mask)) ∧
    (∀ (w : ℚ → ℚ) (field : Field) (mds : MaskDS) (a2 : Str) (cid : Int),
      countryIdOf mds.lookup a2 = some cid →
      selCount mds.code cid = 0 →
      countryWeightedMean w field mds a2 = .error .noCellsForCountry) ∧
    (∀ (w : ℚ → ℚ) (field : Field) (mds : MaskDS) (a2 : Str) (cid : Int),
      countryIdOf mds.lookup a2 = some cid →
      selCount mds.code cid ≠ 0 →
      (∀ row ∈ field, ∀ v ∈ row, v = none) →
      0 < cwmWeightSum w mds.lats field (selGrid mds.code cid) →
      countryWeightedMean w field mds a2 = .ok (some 0)) := by
  refine ⟨?_, ?_, ?_⟩
  · intro w lats field mask h
    simp only [areaWeightedMean, h, if_true]
  · intro w field mds a2 cid hcid hsel
    simp only [countryWeightedMean, hcid, hsel, if_true]
  · intro w field mds a2 cid hcid hsel hall hsw
    have hnum : cwmNanSum w mds.lats field (selGrid mds.code cid) = 0 := by
      rw [cwmNanSum]
      refine List.sum_eq_zero ?_
      intro x hx
      obtain ⟨rrow, hrrow, hxval⟩ := List.mem_map.mp hx
      subst hxval
      refine List.sum_eq_zero ?_
      intro y hy
      obtain ⟨p, hp, hyval⟩ := List.mem_map.mp hy
      subst hyval
      have hp1 : p.1 ∈ rrow.2.1 := (List.of_mem_zip hp).1
      have hrow2 : rrow.2 ∈ field.zip (selGrid mds.code cid) :=
        (List.of_mem_zip hrrow).2
      have hrow21 : rrow.2.1 ∈ field := (List.of_mem_zip hrow2).1
      have hnone : p.1 = none := hall rrow.2.1 hrow21 p.1 hp1
      rw [hnone]
    simp only [countryWeightedMean, hcid, hsel, if_neg (not_le.mpr hsw),
      hnum, zero_div, if_false]

/-- Witness for C1 at concrete masks and fields. -/
theorem c1_witness :
    areaWeightedMean (fun _ => 1) [0] [[none]] [[true]]
      = (none, 0, maskCount [[true]]) ∧
    countryWeightedMean (fun _ => 1) [[some 5]] mdsNoCell ['D', 'E']
      = .error .noCellsForCountry ∧
    countryWeightedMean (fun _ => 1) [[none]] mdsOneCell ['D', 'E']
      = .ok (some 0) := by
  refine ⟨c1_theorem.1 _ _ _ _ rfl, c1_theorem.2.1 _ _ _ _ 1 rfl rfl, ?_⟩
  refine c1_theorem.2.2 _ _ _ _ 1 rfl (by decide) ?_ ?_
  · intro row hrow v hv
    rw [List.mem_singleton] at hrow
    subst hrow
    rw [List.mem_singleton] at hv
    exact hv
  · have hsel : selGrid mdsOneCell.code 1 = [[true]] := rfl
    rw [hsel]
    simp [cwmWeightSum, mdsOneCell]

/-! ## Claim C9 -/

/-- C9 (counterexample): a two-level dataset with level coordinates `0 < 1`
and cell values 10 (level 0) and 20 (level 1): the live normalization
averages the levels to 15 after the time mean; selecting the level with the
largest coordinate — what `normalize_da` does — would give 20. -/
theorem c9_counterexample :
    annualMeanLevReduce dsLev9 = .ok [[some 15]] ∧
    normalizeDaVertical (some [0, 1]) [some 10, some 20] = some (some 20) ∧
    (15 : ℚ) ≠ 20 := by
  refine ⟨?_, ?_, by norm_num⟩
  · have h0 : annualMeanLevReduce dsLev9
        = .ok [[nanmean [timeMeanCell [[[some 10]]] 0 0,
                         timeMeanCell [[[some 20]]] 0 0]]] := rfl
    rw [h0]
    have ht10 : timeMeanCell [[[some 10]]] 0 0 = some 10 := by
      rw [timeMeanCell]
      norm_num [nanmean, finiteVals, List.filterMap_cons, List.filterMap_nil]
    have ht20 : timeMeanCell [[[some 20]]] 0 0 = some 20 := by
      rw [timeMeanCell]
      norm_num [nanmean, finiteVals, List.filterMap_cons, List.filterMap_nil]
    rw [ht10, ht20]
    norm_num [nanmean, finiteVals, List.filterMap_cons, List.filterMap_nil]
  · rw [normalizeDaVertical]
    norm_num [argmaxIdx, List.range_succ]

/-- The first-maximal-index specification of `argmaxIdx`. -/
theorem argmaxIdx_spec (cs : List ℚ) (h : cs ≠ []) :
    argmaxIdx cs < cs.length ∧
    ∀ j < cs.length, cs.getD j 0 ≤ cs.getD (argmaxIdx cs) 0 := by
  have key : ∀ (l : List Nat) (b : Nat),
      (l.foldl (fun best j =>
        if cs.getD best 0 < cs.getD j 0 then j else best) b = b ∨
       l.foldl (fun best j =>
        if cs.getD best 0 < cs.getD j 0 then j else best) b ∈ l) ∧
      cs.getD b 0 ≤ cs.getD (l.foldl (fun best j =>
        if cs.getD best 0 < cs.getD j 0 then j else best) b) 0 ∧
      ∀ j ∈ l, cs.getD j 0 ≤ cs.getD (l.foldl (fun best j =>
        if cs.getD best 0 < cs.getD j 0 then j else best) b) 0 := by
    intro l
    induction l with
    | nil =>
      intro b
      exact ⟨Or.inl rfl, le_refl _, fun j hj => absurd hj (List.not_mem_nil j)⟩
    | cons a l ih =>
      intro b
      simp only [List.foldl_cons]
      obtain ⟨ihmem, ihb, ihall⟩ := ih (if cs.getD b 0 < cs.getD a 0 then a else b)
      by_cases hab : cs.getD b 0 < cs.getD a 0
      · rw [if_pos hab] at ihmem ihb ihall
        refine ⟨?_, ?_, ?_⟩
        · rw [if_pos hab]
          rcases ihmem with h1 | h1
          · exact Or.inr (by rw [h1]; exact List.mem_cons_self a l)
          · exact Or.inr (List.mem_cons_of_mem a h1)
        · rw [if_pos hab]
          exact le_trans (le_of_lt hab) ihb
        · intro j hj
          rw [if_pos hab]
          rcases List.mem_cons.mp hj with h1 | h1
          · rw [h1]; exact ihb
          · exact ihall j h1
      · rw [if_neg hab] at ihmem ihb ihall
        refine ⟨?_, ?_, ?_⟩
        · rw [if_neg hab]
          rcases ihmem with h1 | h1
          · exact Or.inl h1
          · exact Or.inr (List.mem_cons_of_mem a h1)
        · rw [if_neg hab]
          exact ihb
        · intro j hj
          rw [if_neg hab]
          rcases List.mem_cons.mp hj with h1 | h1
          · rw [h1]; exact le_trans (not_lt.mp hab) ihb
          · exact ihall j h1
  have hpos : 0 < cs.length := List.length_pos.mpr h
  obtain ⟨hmem, _, hall⟩ := key (List.range cs.length) 0
  constructor
  · rw [argmaxIdx]
    rcases hmem with h1 | h1
    · rw [h1]; exact hpos
    · exact List.mem_range.mp h1
  · intro j hj
    rw [argmaxIdx]
    exact hall j (List.mem_range.mpr hj)

/-- C9 (amended): `normalize_da` (pm25_calc pipeline, unused by the live
endpoints) reduces a vertical dimension by selecting the level with the
numerically largest coordinate value — the first maximal index — before any
time reduction; but the live `_annual_mean_2015_on_target` pipeline instead
averages the vertical dimension away after the time mean: a two-level cell
with values `a` and `b` yields `(a+b)/2`, not the topmost-level value. -/
theorem c9_theorem {α : Type} (cs : List ℚ) (h : cs ≠ []) (slices : List α)
    (a b : ℚ) :
    (argmaxIdx cs < cs.length ∧
      ∀ j < cs.length, cs.getD j 0 ≤ cs.getD (argmaxIdx cs) 0) ∧
    normalizeDaVertical (some cs) slices = slices.get? (argmaxIdx cs) ∧
    annualMeanLevReduce ⟨[1/2], [1/2], [0, 1], [2015], [[[[some a]], [[some b]]]]⟩
      = .ok [[some ((a + b) / 2)]] := by
  refine ⟨argmaxIdx_spec cs h, rfl, ?_⟩
  have h0 : annualMeanLevReduce
        ⟨[1/2], [1/2], [0, 1], [2015], [[[[some a]], [[some b]]]]⟩
      = .ok [[nanmean [timeMeanCell [[[some a]]] 0 0,
                       timeMeanCell [[[some b]]] 0 0]]] := rfl
  rw [h0]
  have hta : timeMeanCell [[[some a]]] 0 0 = some a := by
    rw [timeMeanCell]
    simp [nanmean, finiteVals, List.filterMap_cons, List.filterMap_nil]
  have htb : timeMeanCell [[[some b]]] 0 0 = some b := by
    rw [timeMeanCell]
    simp [nanmean, finiteVals, List.filterMap_cons, List.filterMap_nil]
  rw [hta, htb]
  simp [nanmean, finiteVals, List.filterMap_cons, List.filterMap_nil]

/-- Witness for C9 at level coordinates `[0, 1]`. -/
theorem c9_witness :
    (argmaxIdx [0, 1] < ([0, 1] : List ℚ).length ∧
      ∀ j < ([0, 1] : List ℚ).length,
        ([0, 1] : List ℚ).getD j 0 ≤ ([0, 1] : List ℚ).getD (argmaxIdx [0, 1]) 0) ∧
    normalizeDaVertical (some [0, 1]) [some 10, some 20]
      = [some 10, some 20].get? (argmaxIdx [0, 1]) ∧
    annualMeanLevReduce ⟨[1/2], [1/2], [0, 1], [2015], [[[[some 3]], [[some 4]]]]⟩
      = .ok [[some ((3 + 4) / 2)]] :=
  c9_theorem [0, 1] (by simp) [some 10, some 20] 3 4

/-! ## Parser soundness (shared by claims C6 and C10) -/

/-- `lastStr` returns the element at index `length - 1`. -/
theorem lastStr_eq_getD (l : List Str) (h : l ≠ []) :
    lastStr l = l.getD (l.length - 1) [] := by
  induction l with
  | nil => exact absurd rfl h
  | cons p ps ih =>
    cases ps with
    | nil => rfl
    | cons q qs =>
      have h1 : lastStr (p :: q :: qs) = lastStr (q :: qs) := rfl
      rw [h1, ih (List.cons_ne_nil q qs)]
      have h2 : (p :: q :: qs : List Str).length - 1
          = ((q :: qs : List Str).length - 1) + 1 := by
        simp
      rw [h2, List.getD_cons_succ]

/-- Python `int(s[:4])` succeeds on a six-digit string. -/
theorem digits_strToNat {s : Str} (hlen : s.length = 6)
    (hd : s.all Char.isDigit = true) :
    strToNat? (s.take 4) = some (digitsToNat (s.take 4)) := by
  rw [strToNat?, if_pos]
  refine ⟨?_, ?_⟩
  · have h4 : (s.take 4).length = 4 := by
      simp [List.length_take, hlen]
    intro hnil
    rw [hnil] at h4
    simp at h4
  · rw [List.all_eq_true] at hd ⊢
    intro c hc
    exact hd c (List.take_subset 4 s hc)

/-- Everything `_parse_key` guarantees about a record it emits: the six
metadata tokens are non-empty and underscore-free, the storage key's basename
ends in `.nc`, and the start/end fields are six-digit strings. -/
theorem parseKey_sound {key : Str} {r : FileRecord}
    (h : parseKey key = some r) :
    (r.var ≠ [] ∧ '_' ∉ r.var) ∧ (r.freq ≠ [] ∧ '_' ∉ r.freq) ∧
    (r.model ≠ [] ∧ '_' ∉ r.model) ∧ (r.scenario ≠ [] ∧ '_' ∉ r.scenario) ∧
    (r.run ≠ [] ∧ '_' ∉ r.run) ∧ (r.grid ≠ [] ∧ '_' ∉ r.grid) ∧
    (['.', 'n', 'c'] <:+ lastStr (splitOnChar '/' r.key)) ∧
    r.start.length = 6 ∧ r.start.all Char.isDigit = true ∧
    r.stop.length = 6 ∧ r.stop.all Char.isDigit = true := by
  simp only [parseKey] at h
  split_ifs at h with hc
  · obtain ⟨hlen7, hall6, htp⟩ := hc
    have hr := Option.some.inj h
    subst hr
    simp only [timePartOk, Bool.and_eq_true, decide_eq_true_eq] at htp
    obtain ⟨⟨⟨⟨ht16, hd1⟩, _⟩, hd2⟩, hnc⟩ := htp
    have hfield : ∀ i, i < 7 →
        (splitOnChar '_' (lastStr (splitOnChar '/' key))).getD i []
          ∈ splitOnChar '_' (lastStr (splitOnChar '/' key)) := by
      intro i hi
      rw [List.getD_eq_getElem _ [] (by rw [hlen7]; exact hi)]
      exact List.getElem_mem _
    have hsep : ∀ i, i < 7 →
        '_' ∉ (splitOnChar '_' (lastStr (splitOnChar '/' key))).getD i [] := by
      intro i hi
      exact splitOnChar_not_mem '_' _ _ (hfield i hi)
    have hne : ∀ i, i < 6 →
        (splitOnChar '_' (lastStr (splitOnChar '/' key))).getD i [] ≠ [] := by
      intro i hi
      have hi6 : i < ((splitOnChar '_' (lastStr (splitOnChar '/' key))).take 6).length := by
        simp [List.length_take, hlen7]
        omega
      have hmem : (splitOnChar '_' (lastStr (splitOnChar '/' key))).getD i []
          ∈ (splitOnChar '_' (lastStr (splitOnChar '/' key))).take 6 := by
        rw [List.getD_eq_getElem _ [] (by rw [hlen7]; omega)]
        rw [← List.getElem_take _ (h := hi6)]
        exact List.getElem_mem _
      have := List.all_eq_true.mp hall6 _ hmem
      simp only [Bool.not_eq_true', List.isEmpty_eq_false] at this
      exact this
    have hlast : lastStr (splitOnChar '_' (lastStr (splitOnChar '/' key)))
        = (splitOnChar '_' (lastStr (splitOnChar '/' key))).getD 6 [] := by
      have h0 := lastStr_eq_getD (splitOnChar '_' (lastStr (splitOnChar '/' key)))
        (splitOnChar_ne_nil _ _)
      rw [hlen7] at h0
      exact h0
    refine ⟨⟨hne 0 (by omega), hsep 0 (by omega)⟩,
      ⟨hne 1 (by omega), hsep 1 (by omega)⟩,
      ⟨hne 2 (by omega), hsep 2 (by omega)⟩,
      ⟨hne 3 (by omega), hsep 3 (by omega)⟩,
      ⟨hne 4 (by omega), hsep 4 (by omega)⟩,
      ⟨hne 5 (by omega), hsep 5 (by omega)⟩, ?_, ?_, hd1, ?_, hd2⟩
    · have h1 : (['.', 'n', 'c'] : Str)
          <:+ (splitOnChar '_' (lastStr (splitOnChar '/' key))).getD 6 [] := by
        rw [← hnc]
        exact List.drop_suffix 13 _
      rw [← hlast] at h1
      exact h1.trans (splitOnChar_last_suffix '_' _)
    · rw [List.length_take, ht16]
      decide
    · rw [List.length_take, List.length_drop, ht16]
      decide

/-! ## Claim C6 -/

/-- C6: for every record the indexer's parser emits, the single-year
selection (`_covers_year`) holds exactly when `start_year ≤ y ≤ end_year`,
and the window selection (`_covers_year_range`) holds exactly when the
year intervals overlap, i.e. `¬(end_year < y0 ∨ start_year > y1)`; neither
ever raises on such a record. -/
theorem c6_theorem (key : Str) (r : FileRecord) (y y0 y1 : Int)
    (h : parseKey key = some r) :
    coversYear r.start r.stop y
      = some (decide ((startYear r : Int) ≤ y ∧ y ≤ (endYear r : Int))) ∧
    coversYearRange r.start r.stop y0 y1
      = some (!decide ((endYear r : Int) < y0 ∨ (startYear r : Int) > y1)) := by
  obtain ⟨-, -, -, -, -, -, -, hsl, hsd, hel, hed⟩ := parseKey_sound h
  constructor
  · rw [coversYear, if_neg (by simp [hsl, hel]),
      digits_strToNat hsl hsd, digits_strToNat hel hed]
    rfl
  · rw [coversYearRange, if_neg (by simp [hsl, hel]),
      digits_strToNat hsl hsd, digits_strToNat hel hed]
    rfl

/-- Witness for C6 on the record parsed from `key0`. -/
theorem c6_witness :
    coversYear rec0.start rec0.stop 2050
      = some (decide ((startYear rec0 : Int) ≤ 2050 ∧
                      (2050 : Int) ≤ (endYear rec0 : Int))) ∧
    coversYearRange rec0.start rec0.stop 2015 2100
      = some (!decide ((endYear rec0 : Int) < 2015 ∨
                       (startYear rec0 : Int) > 2100)) :=
  c6_theorem key0 rec0 2050 2015 2100 (by decide)

/-! ## Claim C10 -/

/-- C10: every record persisted by the reindex operation has non-empty,
underscore-free variable/frequency/model/scenario/run/grid tokens, a storage
key whose basename ends in `.nc`, six-digit start/end fields — and hence the
year extraction `int(start[:4])` / `int(end[:4])` never fails on an indexed
record. -/
theorem c10_theorem (listing : List Str) (r : FileRecord)
    (h : r ∈ (indexPm25Data listing).files) :
    (r.var ≠ [] ∧ '_' ∉ r.var) ∧ (r.freq ≠ [] ∧ '_' ∉ r.freq) ∧
    (r.model ≠ [] ∧ '_' ∉ r.model) ∧ (r.scenario ≠ [] ∧ '_' ∉ r.scenario) ∧
    (r.run ≠ [] ∧ '_' ∉ r.run) ∧ (r.grid ≠ [] ∧ '_' ∉ r.grid) ∧
    (['.', 'n', 'c'] <:+ lastStr (splitOnChar '/' r.key)) ∧
    r.start.length = 6 ∧ r.start.all Char.isDigit = true ∧
    r.stop.length = 6 ∧ r.stop.all Char.isDigit = true ∧
    strToNat? (r.start.take 4) = some (startYear r) ∧
    strToNat? (r.stop.take 4) = some (endYear r) := by
  have hparse : ∃ k, parseKey k = some r := by
    simp only [indexPm25Data] at h
    obtain ⟨k, _, hk⟩ := List.mem_filterMap.mp h
    by_cases he : endsWithNc k = true
    · exact ⟨k, by rwa [if_pos he] at hk⟩
    · rw [if_neg he] at hk
      exact absurd hk (by simp)
  obtain ⟨k, hk⟩ := hparse
  obtain ⟨h1, h2, h3, h4, h5, h6, h7, hsl, hsd, hel, hed⟩ := parseKey_sound hk
  exact ⟨h1, h2, h3, h4, h5, h6, h7, hsl, hsd, hel, hed,
    digits_strToNat hsl hsd, digits_strToNat hel hed⟩

/-- Witness for C10 on a one-key listing. -/
theorem c10_witness :
    (rec0.var ≠ [] ∧ '_' ∉ rec0.var) ∧ (rec0.freq ≠ [] ∧ '_' ∉ rec0.freq) ∧
    (rec0.model ≠ [] ∧ '_' ∉ rec0.model) ∧
    (rec0.scenario ≠ [] ∧ '_' ∉ rec0.scenario) ∧
    (rec0.run ≠ [] ∧ '_' ∉ rec0.run) ∧ (rec0.grid ≠ [] ∧ '_' ∉ rec0.grid) ∧
    (['.', 'n', 'c'] <:+ lastStr (splitOnChar '/' rec0.key)) ∧
    rec0.start.length = 6 ∧ rec0.start.all Char.isDigit = true ∧
    rec0.stop.length = 6 ∧ rec0.stop.all Char.isDigit = true ∧
    strToNat? (rec0.start.take 4) = some (startYear rec0) ∧
    strToNat? (rec0.stop.take 4) = some (endYear rec0) :=
  c10_theorem [key0] rec0 (by decide)

end PM25
